import Mathlib

/-!
Verification of the icmpenguin probe engine (ProbeManager.cpp) against its
natural-language specification.

The development is a shallow embedding of the C++ source: each embedded
definition mirrors one function of `src/icmpenguin/src/main/cpp/ProbeManager.cpp`
(line references in the doc comments).  Machine integers are modelled as
`Int`/`Nat`; C `%` on `int` is `Int.tmod`; `htons` applied to an `int` is
reduction modulo 2^16 (`Int.emod _ 65536`).  Timestamps are modelled in
milliseconds as `Int` (the source keeps `timeval` values and compares them
through `TIMEVAL_TO_MS`).  System calls (`socket`, `bind`, `sendto`,
`recvmsg`) are modelled by explicit oracle records describing their outcome.
-/

namespace Icmpenguin

/-- Source `enum class ProbeType { ICMP = 1, UDP = 2 }` (ProbeManager.h:44). -/
inductive ProbeType where
  | ICMP
  | UDP
deriving DecidableEq, Repr

/-- Source `enum class ProbeStatus` (ProbeManager.h:47). -/
inductive ProbeStatus where
  | WAITING
  | SUCCESS
  | TIMEOUT
  | ERROR
  | FATAL_ERROR
deriving DecidableEq, Repr

/-- Address family of a resolved `sockaddr_storage` (`AF_INET` / `AF_INET6`). -/
inductive AddrFamily where
  | v4
  | v6
deriving DecidableEq, Repr

/-- A resolved socket address: the family, the printable host, and the port
field (`sin_port` / `sin6_port`), kept as a `Nat` already in host order. -/
structure SockAddr where
  family : AddrFamily
  host : String
  port : Nat
deriving DecidableEq, Repr

/-- Source `struct ProbeContext` (ProbeManager.h:51).  Byte buffers are lists of
byte values; the three `timeval` fields are milliseconds as `Int`. -/
structure ProbeContext where
  id : Int := 0
  remote_ip : String := ""
  offender : String := ""
  packet_data : List Nat := []
  reply_data : List Nat := []
  ttl : Int := 0
  reply_ttl : Int := 0
  timeout : Int := 0
  overhead : Int := 0
  probe_type : ProbeType := ProbeType.ICMP
  tv_sent : Int := 0
  tv_received : Int := 0
  tv_diff : Int := 0
  sequence : Int := 0
  error_msg : String := ""
  err_no : Nat := 0
  err_code : Nat := 0
  err_type : Nat := 0
  err_info : Nat := 0
  status : ProbeStatus := ProbeStatus.WAITING
deriving DecidableEq, Repr

/-- Constants from ProbeManager.h. -/
def SEND_PROBE_ERROR : Int := -1

def SEND_PROBE_SUCCESS : Int := 0

def ICMP_HEADER_SIZE : Nat := 8

def INCOMING_BUFFER_SIZE : Nat := 2048

def IPV4_OVERHEAD : Int := 20

def IPV6_OVERHEAD : Int := 40

def UDP_OVERHEAD : Int := 8

/-- Linux `EMSGSIZE` errno value. -/
def EMSGSIZE : Nat := 90

/-- High byte of the 16-bit big-endian encoding of an `int` passed through
`htons` (conversion to `uint16_t` is reduction mod 2^16). -/
def byteHi (x : Int) : Nat := (Int.emod x 65536).toNat / 256

/-- Low byte of the 16-bit big-endian encoding, see `byteHi`. -/
def byteLo (x : Int) : Nat := (Int.emod x 65536).toNat % 256

/-- Behaviour of `std::vector::resize`: keep the first `n` elements, zero-fill the rest. -/
def listResize (l : List Nat) (n : Nat) : List Nat :=
  l.take n ++ List.replicate (n - l.length) 0

/-- Effect of `memcpy(d + off, src, src.length)` on a byte buffer: overwrite the bytes
of `d` at positions `[off, off + src.length)` with `src`, leaving the length
unchanged.  (The source only calls this with `off + src.length ≤ d.length`.) -/
def writeBytes (d : List Nat) (off : Nat) (src : List Nat) : List Nat :=
  (List.range d.length).map fun i =>
    if off ≤ i ∧ i < off + src.length then src.getD (i - off) 0 else d.getD i 0

/-- The pattern-fill loop of `init_packet_data` (ProbeManager.cpp:178-183):
`for (i = data_offset; i < packet_size; i += pattern_len)` copying
`min(pattern_len, packet_size - i)` bytes of the pattern each round.
Structural recursion on a fuel argument; `packet.length` rounds always
suffice because `i` grows by at least one per round. -/
def fillPatternAux : Nat → List Nat → Nat → List Nat → List Nat
  | 0, packet, _, _ => packet
  | fuel + 1, packet, i, pattern =>
    if 0 < pattern.length ∧ i < packet.length then
      fillPatternAux fuel (writeBytes packet i (pattern.take (packet.length - i)))
        (i + pattern.length) pattern
    else packet

/-- Entry point of the pattern-fill loop, starting at `data_offset`. -/
def fillPattern (packet : List Nat) (i : Nat) (pattern : List Nat) : List Nat :=
  fillPatternAux packet.length packet i pattern

/-- The 8-byte ICMP echo header written by `init_packet_data`
(ProbeManager.cpp:161-175): type (`ICMP_ECHO` = 8 for v4,
`ICMPV6_ECHO_REQUEST` = 128 for v6), code 0, zero checksum (the kernel fills
it), then 16-bit big-endian identifier and sequence via `htons`. -/
def echoHeader (family : AddrFamily) (ident seq : Int) : List Nat :=
  [if family = AddrFamily.v4 then 8 else 128, 0, 0, 0,
   byteHi ident, byteLo ident, byteHi seq, byteLo seq]

/-- Embedding of `ProbeManager::init_packet_data` (ProbeManager.cpp:154-185) returning the
packet bytes: zero buffer of `packet_size` (= `max(size, 8)` for ICMP,
`size` for UDP), echo header for ICMP, then the pattern-fill loop from
`data_offset`. -/
def init_packet_data (family : AddrFamily) (ident : Int) (ptype : ProbeType)
    (seq : Int) (size : Nat) (pattern : List Nat) : List Nat :=
  let data_offset := if ptype = ProbeType.ICMP then ICMP_HEADER_SIZE else 0
  let packet_size := if ptype = ProbeType.ICMP ∧ size < ICMP_HEADER_SIZE
    then ICMP_HEADER_SIZE else size
  let base := List.replicate packet_size 0
  let withHdr := if ptype = ProbeType.ICMP
    then writeBytes base 0 (echoHeader family ident seq) else base
  fillPattern withHdr data_offset pattern

/-- The byte the repeating pattern puts at offset `j` past the header end:
`pattern[j mod pattern.length]`, or `0` when the pattern is empty. -/
def patternByte (pattern : List Nat) (j : Nat) : Nat :=
  if pattern.length = 0 then 0 else pattern.getD (j % pattern.length) 0

/-- The engine state touched by the claims: the per-engine identifier, the
resolved addresses, and the probe table keyed by socket descriptor
(`std::unordered_map<int, ProbeContext>` modelled as an association list). -/
structure Engine where
  ident : Int
  remote_ip : String
  source_ip : String
  remote_addr : SockAddr
  source_addr : SockAddr
  probes : List (Nat × ProbeContext)
deriving DecidableEq, Repr

/-- Effect of `probes[fd] = probe` on the unordered map: replace the entry when the
key is present, otherwise add it. -/
def table_insert (t : List (Nat × ProbeContext)) (fd : Nat) (p : ProbeContext) :
    List (Nat × ProbeContext) :=
  if t.any (fun x => x.1 = fd) then
    t.map (fun x => if x.1 = fd then (fd, p) else x)
  else t ++ [(fd, p)]

/-- Outcome oracle for the system calls issued by one `send_probe` call:
the descriptor `socket` returns (`none` = failure), whether `bind`
succeeds, and the errno `sendto` fails with (`none` = the send succeeded). -/
structure SysWorld where
  socketFd : Option Nat
  bindOk : Bool
  sendErr : Option Nat
deriving DecidableEq, Repr

/-- Everything observable about one `send_probe` call: its return value, the
engine state afterwards, the probe records passed synchronously to
`trigger_callback`, the descriptors closed, and the destination address
handed to `sendto` (`none` when the call never reached `sendto`). -/
structure SendOutcome where
  ret : Int
  engine : Engine
  callbacks : List ProbeContext
  closed : List Nat
  sentTo : Option SockAddr
deriving DecidableEq, Repr

/-- Embedding of `ProbeManager::send_probe` (ProbeManager.cpp:269-343).  The probe record
is built with `overhead = (UDP ? 8 : 0) + (v4 ? 20 : 40)` and
`sequence = sequence % 0xffff` (C truncated remainder by 65535).  Then:
socket creation failure or bind failure deliver a FATAL_ERROR record
synchronously and return -1; otherwise the packet is built, the destination
is a local copy of `remote_addr` (with the port written into the copy for
UDP and `port > 0`), and `sendto` failure with errno other than `EMSGSIZE`
closes the socket, delivers FATAL_ERROR synchronously and returns -1, while
success or `EMSGSIZE` registers the probe via `add_socket` and returns 0.
`detect_mtu` only selects socket options (`init_socket`), which have no
modelled effect. -/
def send_probe (e : Engine) (w : SysWorld) (id : Int) (ptype : ProbeType)
    (port seq ttl timeout : Int) (size : Nat) (detect_mtu : Bool)
    (pattern : List Nat) (now : Int) : SendOutcome :=
  let probe : ProbeContext :=
    { id := id, remote_ip := e.remote_ip, ttl := ttl, timeout := timeout,
      overhead := (if ptype = ProbeType.UDP then UDP_OVERHEAD else 0) +
        (if e.remote_addr.family = AddrFamily.v4 then IPV4_OVERHEAD else IPV6_OVERHEAD),
      probe_type := ptype, sequence := Int.tmod seq 65535 }
  match w.socketFd with
  | none =>
    let p := { probe with error_msg := "Error creating socket",
                          status := ProbeStatus.FATAL_ERROR }
    { ret := SEND_PROBE_ERROR, engine := e, callbacks := [p], closed := [],
      sentTo := none }
  | some sock =>
    if e.source_ip ≠ "" ∧ w.bindOk = false then
      let p := { probe with error_msg := "Error binding socket",
                            status := ProbeStatus.FATAL_ERROR }
      { ret := SEND_PROBE_ERROR, engine := e, callbacks := [p], closed := [sock],
        sentTo := none }
    else
      let probe := { probe with
        packet_data := init_packet_data e.remote_addr.family e.ident ptype
          probe.sequence size pattern }
      let local_remote_addr :=
        if ptype = ProbeType.UDP ∧ port > 0 then
          { e.remote_addr with port := (Int.emod port 65536).toNat }
        else e.remote_addr
      let probe := { probe with tv_sent := now }
      match w.sendErr with
      | some errn =>
        if errn ≠ EMSGSIZE then
          let p := { probe with error_msg := "Error sending probe",
                                status := ProbeStatus.FATAL_ERROR }
          { ret := SEND_PROBE_ERROR, engine := e, callbacks := [p],
            closed := [sock], sentTo := some local_remote_addr }
        else
          { ret := SEND_PROBE_SUCCESS,
            engine := { e with probes := table_insert e.probes sock probe },
            callbacks := [], closed := [], sentTo := some local_remote_addr }
      | none =>
          { ret := SEND_PROBE_SUCCESS,
            engine := { e with probes := table_insert e.probes sock probe },
            callbacks := [], closed := [], sentTo := some local_remote_addr }

/-- A control message seen by `recvmsg`: an extended-error message
(`IP_RECVERR` / `IPV6_RECVERR`), a hop-limit message (`IP_TTL` /
`IPV6_HOPLIMIT`), or anything else (ignored by the source). -/
inductive Cmsg where
  | recvErr (errno code origin info : Nat) (offender : String)
  | hopLimit (ttl : Int)
  | other
deriving DecidableEq, Repr

/-- Result of one successful non-blocking `recvmsg`: the byte count returned
and the control messages attached. -/
structure RecvResult where
  dataLen : Nat
  cmsgs : List Cmsg
deriving DecidableEq, Repr

/-- Outcome oracle for the two receive passes of `read_data` on one
descriptor: the `MSG_ERRQUEUE` pass, the plain data pass (`none` = the
non-blocking call would block), and the `SIOCGSTAMP` timestamps the two
passes would observe. -/
structure RecvWorld where
  errqueue : Option RecvResult
  dataRecv : Option RecvResult
  stampErr : Int
  stampData : Int
deriving DecidableEq, Repr

/-- One control message of the walk in `read_data`
(ProbeManager.cpp:455-480): an extended-error message records the offender
and the `ee_*` fields, sets status ERROR and re-stamps `tv_received` from
the socket (`SIOCGSTAMP`); a hop-limit message records `reply_ttl`; other
messages are ignored. -/
def cmsgStep (stamp : Int) (q : ProbeContext) (c : Cmsg) : ProbeContext :=
  match c with
  | Cmsg.recvErr errno code origin info off =>
    { q with offender := off, err_no := errno, err_code := code,
             err_type := origin, err_info := info,
             status := ProbeStatus.ERROR, tv_received := stamp }
  | Cmsg.hopLimit t => { q with reply_ttl := t }
  | Cmsg.other => q

/-- The full control-message walk of one `recvmsg` result. -/
def processCmsgs (p : ProbeContext) (cmsgs : List Cmsg) (stamp : Int) : ProbeContext :=
  cmsgs.foldl (cmsgStep stamp) p

/-- Entry and pass 1 of `ProbeManager::read_data` (ProbeManager.cpp:427-480,
first loop iteration, `flag = MSG_ERRQUEUE`): stamp `tv_received`, set
status TIMEOUT, resize the reply buffer to `INCOMING_BUFFER_SIZE`, then
walk the control messages of the error-queue receive when it yielded
anything. -/
def read_pass1 (probe : ProbeContext) (w : RecvWorld) (now : Int) : ProbeContext :=
  let p0 := { probe with tv_received := now, status := ProbeStatus.TIMEOUT,
                         reply_data := listResize probe.reply_data INCOMING_BUFFER_SIZE }
  match w.errqueue with
  | none => p0
  | some r => processCmsgs p0 r.cmsgs w.stampErr

/-- Pass 2 of `ProbeManager::read_data` (second loop iteration, `flag = 0`):
skipped entirely when pass 1 posted ERROR (the `break`); otherwise, when
the plain receive yielded data, walk its control messages, set status
SUCCESS, re-stamp from the socket, and trim the reply buffer to the
returned length (ProbeManager.cpp:481-486). -/
def read_pass2 (p1 : ProbeContext) (w : RecvWorld) : ProbeContext :=
  if p1.status = ProbeStatus.ERROR then p1
  else match w.dataRecv with
    | none => p1
    | some r =>
      let q := processCmsgs p1 r.cmsgs w.stampData
      { q with status := ProbeStatus.SUCCESS, tv_received := w.stampData,
               reply_data := listResize q.reply_data r.dataLen }

/-- Embedding of `ProbeManager::read_data` (ProbeManager.cpp:427-496) acting on the probe
record of the readable descriptor: the two receive passes, then
`tv_diff = tv_received − tv_sent`. -/
def read_data (probe : ProbeContext) (w : RecvWorld) (now : Int) : ProbeContext :=
  let p2 := read_pass2 (read_pass1 probe w now) w
  { p2 with tv_diff := p2.tv_received - p2.tv_sent }

/-- Embedding of `ProbeManager::force_timeouts` (ProbeManager.cpp:356-362): every WAITING
entry becomes TIMEOUT. -/
def force_timeouts (probes : List (Nat × ProbeContext)) : List (Nat × ProbeContext) :=
  probes.map fun x =>
    if x.2.status = ProbeStatus.WAITING
    then (x.1, { x.2 with status := ProbeStatus.TIMEOUT }) else x

/-- Embedding of `ProbeManager::clean_probes` (ProbeManager.cpp:364-376): erase every
entry whose status is not WAITING, closing its descriptor.  Returns the
remaining table and the closed descriptors. -/
def clean_probes (probes : List (Nat × ProbeContext)) :
    List (Nat × ProbeContext) × List Nat :=
  (probes.filter (fun x => x.2.status = ProbeStatus.WAITING),
   (probes.filter (fun x => ¬ x.2.status = ProbeStatus.WAITING)).map Prod.fst)

/-- Embedding of `ProbeManager::check_timeouts` (ProbeManager.cpp:378-391): a WAITING
entry with `now − tv_sent > timeout` becomes TIMEOUT. -/
def check_timeouts (now : Int) (probes : List (Nat × ProbeContext)) :
    List (Nat × ProbeContext) :=
  probes.map fun x =>
    if x.2.status = ProbeStatus.WAITING ∧ now - x.2.tv_sent > x.2.timeout
    then (x.1, { x.2 with status := ProbeStatus.TIMEOUT }) else x

/-- Embedding of `ProbeManager::send_callbacks` (ProbeManager.cpp:393-400): invoke the
callback once for each entry whose status is not WAITING; returns the
records passed to `trigger_callback`, in table order. -/
def send_callbacks (probes : List (Nat × ProbeContext)) : List ProbeContext :=
  (probes.filter (fun x => ¬ x.2.status = ProbeStatus.WAITING)).map Prod.snd

/-- Embedding of `ProbeManager::get_min_wait_time` (ProbeManager.cpp:402-420): fold over
the table starting from -1; for each WAITING entry compute
`timeout - (now - tv_sent)`, take it when the accumulator is -1 or it is
smaller, clamping the accumulator at 0 right after taking it. -/
def get_min_wait_time (now : Int) (probes : List (Nat × ProbeContext)) : Int :=
  probes.foldl (fun acc x =>
    if x.2.status = ProbeStatus.WAITING then
      let t := x.2.timeout - (now - x.2.tv_sent)
      if acc = -1 ∨ t < acc then (if t < 0 then 0 else t) else acc
    else acc) (-1)

/-- Modelled from the spec (§4.6 Min-wait): "`get_min_wait_time` returns the
smallest `max(0, timeout_ms − (now − tv_sent))` over WAITING probes, or -1
if none."  Stated independently of the source to compare against
`get_min_wait_time`. -/
def spec_min_wait (now : Int) (probes : List (Nat × ProbeContext)) : Int :=
  let waits := (probes.filter (fun x => x.2.status = ProbeStatus.WAITING)).map
    (fun x => max 0 (x.2.timeout - (now - x.2.tv_sent)))
  match waits with
  | [] => -1
  | t :: ts => ts.foldl min t

/-- The result of one completion sweep or of the shutdown path: the table
afterwards, the records handed to `trigger_callback`, and the closed
descriptors. -/
structure SweepResult where
  remaining : List (Nat × ProbeContext)
  delivered : List ProbeContext
  closed : List Nat
deriving DecidableEq, Repr

/-- The per-iteration completion sweep of the worker loop
(ProbeManager.cpp:121-123): `check_timeouts(); send_callbacks();
clean_probes();`. -/
def loop_sweep (now : Int) (probes : List (Nat × ProbeContext)) : SweepResult :=
  let p1 := check_timeouts now probes
  let delivered := send_callbacks p1
  let cleaned := clean_probes p1
  { remaining := cleaned.1, delivered := delivered, closed := cleaned.2 }

/-- The post-loop shutdown path of `ProbeManager::handler`
(ProbeManager.cpp:125-126): `force_timeouts(); clean_probes();`.  Neither
function invokes `trigger_callback`, so the path emits no callbacks; the
delivered component is therefore empty. -/
def handler_exit (probes : List (Nat × ProbeContext)) : SweepResult :=
  let p1 := force_timeouts probes
  let cleaned := clean_probes p1
  { remaining := cleaned.1, delivered := [], closed := cleaned.2 }

/-- One observable event in the engine's lifetime: a caller's `send_probe`
call, a readiness event dispatched to `read_data`, the end-of-iteration
sweep, or the post-loop shutdown path. -/
inductive WorkerEvent where
  | sendEv (w : SysWorld) (id : Int) (ptype : ProbeType)
      (port seq ttl timeout : Int) (size : Nat) (detect_mtu : Bool)
      (pattern : List Nat) (now : Int)
  | readyEv (fd : Nat) (rw : RecvWorld) (now : Int)
  | sweepEv (now : Int)
  | shutdownEv
deriving Repr

/-- One step of the engine: apply the event, returning the new engine state
and the probe records passed to `trigger_callback` during the step.
Readiness events are dispatched only to registered descriptors (the
multiplexor holds exactly the table's descriptors plus the notifier). -/
def stepEngine (e : Engine) (ev : WorkerEvent) : Engine × List ProbeContext :=
  match ev with
  | WorkerEvent.sendEv w id ptype port seq ttl timeout size detect_mtu pattern now =>
    let out := send_probe e w id ptype port seq ttl timeout size detect_mtu pattern now
    (out.engine, out.callbacks)
  | WorkerEvent.readyEv fd rw now =>
    ({ e with probes := e.probes.map fun x =>
        if x.1 = fd then (x.1, read_data x.2 rw now) else x }, [])
  | WorkerEvent.sweepEv now =>
    let s := loop_sweep now e.probes
    ({ e with probes := s.remaining }, s.delivered)
  | WorkerEvent.shutdownEv =>
    let s := handler_exit e.probes
    ({ e with probes := s.remaining }, s.delivered)

/-- Run a sequence of events, collecting every record passed to
`trigger_callback` over the whole run. -/
def runEngine (e : Engine) : List WorkerEvent → Engine × List ProbeContext
  | [] => (e, [])
  | ev :: evs =>
    let s := stepEngine e ev
    let r := runEngine s.1 evs
    (r.1, s.2 ++ r.2)

/-- The overhead formula of the spec: `(UDP ? 8 : 0) + (v4 ? 20 : 40)`. -/
def overheadSpec (ptype : ProbeType) (family : AddrFamily) : Int :=
  (if ptype = ProbeType.UDP then 8 else 0) +
    (if family = AddrFamily.v4 then 20 else 40)

/-- Invariant: every table entry's overhead satisfies the spec formula for
its own probe type and the engine's destination family. -/
def overheadInv (e : Engine) : Prop :=
  ∀ x ∈ e.probes, x.2.overhead = overheadSpec x.2.probe_type e.remote_addr.family

/-! ### Generic list helpers -/

lemma getD_out_of_range {l : List Nat} {j : Nat} (h : l.length ≤ j) :
    l.getD j 0 = 0 := by
  rw [List.getD_eq_getElem?_getD, List.getElem?_eq_none h]
  rfl

lemma getD_range_map (f : Nat → Nat) (n j : Nat) (hj : j < n) :
    ((List.range n).map f).getD j 0 = f j := by
  rw [List.getD_eq_getElem?_getD, List.getElem?_map, List.getElem?_range hj]
  rfl

lemma getD_append (l₁ l₂ : List Nat) (j : Nat) :
    (l₁ ++ l₂).getD j 0 =
      if j < l₁.length then l₁.getD j 0 else l₂.getD (j - l₁.length) 0 := by
  rw [List.getD_eq_getElem?_getD, List.getElem?_append]
  split
  · rw [List.getD_eq_getElem?_getD]
  · rw [List.getD_eq_getElem?_getD]

lemma getD_replicate_zero (n j : Nat) : (List.replicate n 0).getD j 0 = 0 := by
  rw [List.getD_eq_getElem?_getD, List.getElem?_replicate]
  split <;> rfl

lemma getD_take (l : List Nat) (n j : Nat) (hj : j < n) :
    (l.take n).getD j 0 = l.getD j 0 := by
  rw [List.getD_eq_getElem?_getD, List.getD_eq_getElem?_getD, List.getElem?_take,
    if_pos hj]

lemma ext_of_getD {l₁ l₂ : List Nat} (hlen : l₁.length = l₂.length)
    (h : ∀ j, l₁.getD j 0 = l₂.getD j 0) : l₁ = l₂ := by
  apply List.ext_getElem?
  intro n
  by_cases hn : n < l₁.length
  · have h₂ : n < l₂.length := by omega
    have hg := h n
    rw [List.getD_eq_getElem?_getD, List.getD_eq_getElem?_getD,
      List.getElem?_eq_getElem hn, List.getElem?_eq_getElem h₂] at hg
    rw [List.getElem?_eq_getElem hn, List.getElem?_eq_getElem h₂]
    simpa using hg
  · rw [List.getElem?_eq_none (by omega), List.getElem?_eq_none (by omega)]

lemma length_filter_partition (l : List (Nat × ProbeContext)) (p : Nat × ProbeContext → Bool) :
    (l.filter p).length + (l.filter (fun a => !(p a))).length = l.length := by
  induction l with
  | nil => rfl
  | cons a l ih =>
    by_cases ha : p a
    · simp [List.filter_cons, ha]
      omega
    · simp [List.filter_cons, ha]
      omega

/-! ### Packet builder lemmas -/

lemma length_writeBytes (d : List Nat) (off : Nat) (src : List Nat) :
    (writeBytes d off src).length = d.length := by
  simp [writeBytes]

lemma getD_writeBytes (d : List Nat) (off : Nat) (src : List Nat) (j : Nat) :
    (writeBytes d off src).getD j 0 =
      if j < d.length then
        (if off ≤ j ∧ j < off + src.length then src.getD (j - off) 0 else d.getD j 0)
      else 0 := by
  by_cases hj : j < d.length
  · rw [if_pos hj, writeBytes, getD_range_map _ _ _ hj]
  · rw [if_neg hj]
    exact getD_out_of_range (by rw [length_writeBytes]; omega)

lemma length_fillPatternAux (fuel : Nat) (packet : List Nat) (i : Nat)
    (pattern : List Nat) :
    (fillPatternAux fuel packet i pattern).length = packet.length := by
  induction fuel generalizing packet i with
  | zero => rfl
  | succ fuel ih =>
    rw [fillPatternAux]
    split
    · rw [ih, length_writeBytes]
    · rfl

lemma getD_fillPatternAux (fuel : Nat) (packet : List Nat) (i : Nat)
    (pattern : List Nat) (hfuel : packet.length - i ≤ fuel) (j : Nat) :
    (fillPatternAux fuel packet i pattern).getD j 0 =
      if 0 < pattern.length ∧ i ≤ j ∧ j < packet.length then
        pattern.getD ((j - i) % pattern.length) 0
      else packet.getD j 0 := by
  induction fuel generalizing packet i with
  | zero =>
    have hni : packet.length ≤ i := by omega
    rw [fillPatternAux, if_neg (by omega)]
  | succ fuel ih =>
    rw [fillPatternAux]
    by_cases hc : 0 < pattern.length ∧ i < packet.length
    · rw [if_pos hc]
      obtain ⟨hL, hi⟩ := hc
      have hlen : (writeBytes packet i (pattern.take (packet.length - i))).length
          = packet.length := length_writeBytes _ _ _
      rw [ih _ _ (by rw [hlen]; omega), hlen]
      by_cases h1 : 0 < pattern.length ∧ i + pattern.length ≤ j ∧ j < packet.length
      · rw [if_pos h1, if_pos ⟨hL, by omega, h1.2.2⟩]
        have hidx : (j - (i + pattern.length)) % pattern.length
            = (j - i) % pattern.length := by
          have h2 : j - i ≥ pattern.length := by omega
          rw [Nat.mod_eq_sub_mod h2]
          congr 1
          omega
        rw [hidx]
      · rw [if_neg h1, getD_writeBytes]
        by_cases hj : j < packet.length
        · rw [if_pos hj]
          by_cases hij : i ≤ j
          · have hjlt : j < i + pattern.length := by
              by_contra hcon
              exact h1 ⟨hL, by omega, hj⟩
            have hchunk : (pattern.take (packet.length - i)).length
                = min (packet.length - i) pattern.length := by
              rw [List.length_take]
            have hcond : i ≤ j ∧ j < i + (pattern.take (packet.length - i)).length := by
              refine ⟨hij, ?_⟩
              rw [hchunk]
              omega
            rw [if_pos hcond, if_pos ⟨hL, hij, hj⟩]
            have hmod : (j - i) % pattern.length = j - i :=
              Nat.mod_eq_of_lt (by omega)
            rw [hmod, getD_take _ _ _ (by omega)]
          · have hcond : ¬ (i ≤ j ∧ j < i + (pattern.take (packet.length - i)).length) := by
              intro hx
              exact hij hx.1
            rw [if_neg hcond, if_neg (by omega)]
        · rw [if_neg hj, if_neg (by omega)]
          exact (getD_out_of_range (by omega)).symm
    · rw [if_neg hc, if_neg (by omega)]

lemma length_fillPattern (packet : List Nat) (i : Nat) (pattern : List Nat) :
    (fillPattern packet i pattern).length = packet.length :=
  length_fillPatternAux _ _ _ _

lemma getD_fillPattern (packet : List Nat) (i : Nat) (pattern : List Nat) (j : Nat) :
    (fillPattern packet i pattern).getD j 0 =
      if 0 < pattern.length ∧ i ≤ j ∧ j < packet.length then
        pattern.getD ((j - i) % pattern.length) 0
      else packet.getD j 0 :=
  getD_fillPatternAux _ _ _ _ (by omega) j

lemma length_echoHeader (family : AddrFamily) (ident seq : Int) :
    (echoHeader family ident seq).length = 8 := by
  cases family <;> rfl

lemma init_packet_data_icmp (family : AddrFamily) (ident seq : Int) (size : Nat)
    (pattern : List Nat) :
    init_packet_data family ident ProbeType.ICMP seq size pattern =
      fillPattern (writeBytes (List.replicate (max size 8) 0) 0
        (echoHeader family ident seq)) 8 pattern := by
  have h : (if size < 8 then 8 else size) = max size 8 := by
    split <;> omega
  simp [init_packet_data, ICMP_HEADER_SIZE, h]

lemma init_packet_data_udp (family : AddrFamily) (ident seq : Int) (size : Nat)
    (pattern : List Nat) :
    init_packet_data family ident ProbeType.UDP seq size pattern =
      fillPattern (List.replicate size 0) 0 pattern := by
  simp [init_packet_data]

/-- C7: for every `send_probe` call with size `S` and pattern `P` of length
`L`, the packet built by `init_packet_data` is `max(S, 8)` bytes for ICMP
and `S` bytes for UDP; for ICMP the first 8 bytes are the echo header
(v4: type 8, code 0; v6: type 128, code 0; both with 16-bit big-endian
identifier and sequence, and a zero checksum for the kernel to fill); the
bytes from the header end to the packet end are the pattern repeated with
the final chunk truncated (byte `j` past the header end is
`P[j mod L]`), and when `L = 0` they are all zero. -/
theorem C7_packet_shape (family : AddrFamily) (ident seq : Int) (size : Nat)
    (pattern : List Nat) :
    init_packet_data family ident ProbeType.ICMP seq size pattern
      = echoHeader family ident seq
        ++ (List.range (max size 8 - 8)).map (fun j => patternByte pattern j)
  ∧ init_packet_data family ident ProbeType.UDP seq size pattern
      = (List.range size).map (fun j => patternByte pattern j) := by
  have hhdr : (echoHeader family ident seq).length = 8 := length_echoHeader family ident seq
  constructor
  · rw [init_packet_data_icmp]
    have hM : 8 ≤ max size 8 := by omega
    have hbase : (List.replicate (max size 8) 0).length = max size 8 := by simp
    have hwlen : (writeBytes (List.replicate (max size 8) 0) 0
        (echoHeader family ident seq)).length = max size 8 := by
      rw [length_writeBytes, hbase]
    apply ext_of_getD
    · rw [length_fillPattern, hwlen]
      simp only [List.length_append, List.length_map, List.length_range, hhdr]
      omega
    · intro j
      rw [getD_fillPattern, hwlen, getD_append, hhdr]
      by_cases hj8 : j < 8
      · rw [if_neg (by omega), if_pos hj8, getD_writeBytes, hbase, hhdr,
          if_pos (by omega), if_pos (by omega)]
        simp
      · by_cases hjM : j < max size 8
        · rw [if_neg hj8]
          have hrng : j - 8 < max size 8 - 8 := by omega
          rw [getD_range_map _ _ _ hrng]
          by_cases hL : 0 < pattern.length
          · rw [if_pos ⟨hL, by omega, hjM⟩, patternByte, if_neg (by omega)]
          · rw [if_neg (by simp [hL]), getD_writeBytes, hbase, hhdr,
              if_pos hjM, if_neg (by omega), getD_replicate_zero,
              patternByte, if_pos (by omega)]
        · rw [if_neg (by omega), if_neg (by omega), getD_writeBytes, hbase,
            if_neg (by omega)]
          exact (getD_out_of_range (by simp; omega)).symm
  · rw [init_packet_data_udp]
    apply ext_of_getD
    · rw [length_fillPattern]
      simp
    · intro j
      rw [getD_fillPattern]
      simp only [List.length_replicate]
      by_cases hj : j < size
      · rw [getD_range_map _ _ _ hj]
        by_cases hL : 0 < pattern.length
        · rw [if_pos ⟨hL, by omega, hj⟩, patternByte, if_neg (by omega)]
          simp
        · rw [if_neg (by simp [hL]), getD_replicate_zero, patternByte,
            if_pos (by omega)]
      · rw [if_neg (by omega)]
        rw [getD_replicate_zero]
        exact (getD_out_of_range (by simp; omega)).symm

/-- The integer step of the `get_min_wait_time` fold. -/
def minWaitStep (acc t : Int) : Int :=
  if acc = -1 ∨ t < acc then (if t < 0 then 0 else t) else acc

/-- The per-entry step of the `get_min_wait_time` fold. -/
def gmwtStep (now : Int) (acc : Int) (x : Nat × ProbeContext) : Int :=
  if x.2.status = ProbeStatus.WAITING then
    minWaitStep acc (x.2.timeout - (now - x.2.tv_sent))
  else acc

lemma gmwt_def (now : Int) (probes : List (Nat × ProbeContext)) :
    get_min_wait_time now probes = probes.foldl (gmwtStep now) (-1) := rfl

lemma gmwt_as_int_fold (now : Int) (probes : List (Nat × ProbeContext)) (acc : Int) :
    probes.foldl (gmwtStep now) acc
    = ((probes.filter (fun x => x.2.status = ProbeStatus.WAITING)).map
        (fun x => x.2.timeout - (now - x.2.tv_sent))).foldl minWaitStep acc := by
  induction probes generalizing acc with
  | nil => rfl
  | cons x l ih =>
    by_cases hx : x.2.status = ProbeStatus.WAITING
    · rw [List.foldl_cons, List.filter_cons, if_pos (by simp [hx]), List.map_cons,
        List.foldl_cons, ih]
      congr 1
      simp [gmwtStep, hx]
    · rw [List.foldl_cons, List.filter_cons, if_neg (by simp [hx]), ih]
      congr 1
      simp [gmwtStep, hx]

lemma minWaitStep_nonneg (acc t : Int) (h : 0 ≤ acc) :
    minWaitStep acc t = min acc (max 0 t) := by
  unfold minWaitStep
  split
  · split <;> omega
  · omega

lemma int_fold_clamped (l : List Int) (acc : Int) (h : 0 ≤ acc) :
    l.foldl minWaitStep acc = (l.map (fun t => max 0 t)).foldl min acc := by
  induction l generalizing acc with
  | nil => rfl
  | cons t ts ih =>
    rw [List.map_cons, List.foldl_cons, List.foldl_cons,
      minWaitStep_nonneg _ _ h, ih _ (by omega)]

/-- C9: `get_min_wait_time` returns the minimum of
`max(0, timeout_ms − (now − tv_sent))` over all probes whose status is
WAITING, and returns -1 when no probe is WAITING (the clamped running fold
of the source equals the spec's clamped minimum). -/
theorem C9_min_wait (now : Int) (probes : List (Nat × ProbeContext)) :
    get_min_wait_time now probes = spec_min_wait now probes := by
  rw [gmwt_def, gmwt_as_int_fold]
  unfold spec_min_wait
  have hmm : (probes.filter (fun x => x.2.status = ProbeStatus.WAITING)).map
      (fun x => max 0 (x.2.timeout - (now - x.2.tv_sent)))
    = ((probes.filter (fun x => x.2.status = ProbeStatus.WAITING)).map
        (fun x => x.2.timeout - (now - x.2.tv_sent))).map (fun t => max 0 t) := by
    rw [List.map_map]
    rfl
  rw [hmm]
  cases hr : (probes.filter (fun x => x.2.status = ProbeStatus.WAITING)).map
      (fun x => x.2.timeout - (now - x.2.tv_sent)) with
  | nil => rfl
  | cons t ts =>
    rw [List.map_cons, List.foldl_cons]
    have hstep : minWaitStep (-1) t = max 0 t := by
      unfold minWaitStep
      split
      · split <;> omega
      · omega
    rw [hstep, int_fold_clamped _ _ (by omega)]

lemma force_timeouts_not_waiting (probes : List (Nat × ProbeContext)) :
    ∀ x ∈ force_timeouts probes, ¬ x.2.status = ProbeStatus.WAITING := by
  intro x hx
  unfold force_timeouts at hx
  rw [List.mem_map] at hx
  obtain ⟨y, hy, rfl⟩ := hx
  by_cases hw : y.2.status = ProbeStatus.WAITING
  · simp [hw]
  · simp [hw]

lemma force_timeouts_fst (probes : List (Nat × ProbeContext)) :
    (force_timeouts probes).map Prod.fst = probes.map Prod.fst := by
  unfold force_timeouts
  rw [List.map_map]
  apply List.map_congr_left
  intro x hx
  by_cases hw : x.2.status = ProbeStatus.WAITING
  · simp [hw]
  · simp [hw]

lemma handler_exit_eq (probes : List (Nat × ProbeContext)) :
    handler_exit probes = ⟨[], [], probes.map Prod.fst⟩ := by
  unfold handler_exit clean_probes
  have h1 : (force_timeouts probes).filter
      (fun x => x.2.status = ProbeStatus.WAITING) = [] := by
    rw [List.filter_eq_nil_iff]
    intro x hx
    simpa using force_timeouts_not_waiting probes x hx
  have h2 : (force_timeouts probes).filter
      (fun x => ¬ x.2.status = ProbeStatus.WAITING) = force_timeouts probes := by
    rw [List.filter_eq_self]
    intro x hx
    simpa using force_timeouts_not_waiting probes x hx
  simp only [h1, h2, force_timeouts_fst]

/-- A probe still WAITING when the worker loop exits. -/
def c1probe : ProbeContext := { id := 11, status := ProbeStatus.WAITING }

/-- C1 counterexample: a probe still WAITING at loop exit is forced to
TIMEOUT and reaped (its entry removed and its descriptor closed), but the
post-loop path delivers nothing — the callback is never invoked for it,
refuting the claim that every such probe is delivered before `stop`
returns. -/
theorem C1_counterexample :
    c1probe.status = ProbeStatus.WAITING
  ∧ (handler_exit [(3, c1probe)]).delivered = []
  ∧ (handler_exit [(3, c1probe)]).remaining = []
  ∧ (handler_exit [(3, c1probe)]).closed = [3] := by
  decide

/-- C1 amended: when `stop()` is requested, every probe still WAITING at
loop exit is forced to TIMEOUT and is reaped (its table entry removed and
its socket closed) before `stop()` returns, but it is NOT delivered to the
callback: the post-loop path (`force_timeouts(); clean_probes();`,
ProbeManager.cpp:125-126) runs no delivery pass, so the shutdown sweep
empties the table, closes every descriptor, and emits no callbacks. -/
theorem C1_amended (probes : List (Nat × ProbeContext)) :
    handler_exit probes = ⟨[], [], probes.map Prod.fst⟩ :=
  handler_exit_eq probes

lemma check_timeouts_length (now : Int) (probes : List (Nat × ProbeContext)) :
    (check_timeouts now probes).length = probes.length := by
  unfold check_timeouts
  rw [List.length_map]

lemma loop_sweep_partition (now : Int) (probes : List (Nat × ProbeContext)) :
    (loop_sweep now probes).delivered.length + (loop_sweep now probes).remaining.length
      = probes.length := by
  unfold loop_sweep send_callbacks clean_probes
  simp only [List.length_map]
  have hnot : (check_timeouts now probes).filter
        (fun x => ¬ x.2.status = ProbeStatus.WAITING)
      = (check_timeouts now probes).filter
        (fun x => !(decide (x.2.status = ProbeStatus.WAITING))) := by
    apply List.filter_congr
    intro x _
    simp [decide_not]
  rw [hnot]
  have := length_filter_partition (check_timeouts now probes)
    (fun x => decide (x.2.status = ProbeStatus.WAITING))
  rw [← check_timeouts_length now probes]
  omega

/-- C3 amended: the callback is invoked at most once per probe, and exactly
once for every probe that reaches a terminal status while the loop runs: in
each completion sweep, every entry either stays WAITING and is retained
undelivered or is terminal, delivered, and removed (so the delivered and
retained entries together account for the whole table, and no terminal
entry survives even one reaper pass); a probe still WAITING at loop exit is
reaped by the shutdown path without any callback. -/
theorem C3_amended (now : Int) (probes : List (Nat × ProbeContext)) :
    (loop_sweep now probes).delivered.length + (loop_sweep now probes).remaining.length
      = probes.length
  ∧ (∀ x ∈ (loop_sweep now probes).remaining, x.2.status = ProbeStatus.WAITING)
  ∧ (∀ fd p, (fd, p) ∈ check_timeouts now probes → ¬ p.status = ProbeStatus.WAITING →
      p ∈ (loop_sweep now probes).delivered ∧ (fd, p) ∉ (loop_sweep now probes).remaining)
  ∧ (handler_exit probes).delivered = [] := by
  refine ⟨loop_sweep_partition now probes, ?_, ?_, rfl⟩
  · intro x hx
    unfold loop_sweep clean_probes at hx
    simp only at hx
    rw [List.mem_filter] at hx
    simpa using hx.2
  · intro fd p hmem hp
    constructor
    · unfold loop_sweep send_callbacks
      simp only
      rw [List.mem_map]
      refine ⟨(fd, p), ?_, rfl⟩
      rw [List.mem_filter]
      exact ⟨hmem, by simpa using hp⟩
    · intro hcon
      unfold loop_sweep clean_probes at hcon
      simp only at hcon
      rw [List.mem_filter] at hcon
      exact hp (by simpa using hcon.2)

/-- A probe already terminal at the sweep. -/
def t3probe : ProbeContext := { id := 21, status := ProbeStatus.TIMEOUT }

/-- C3 witness: a concrete terminal entry is delivered by the sweep. -/
theorem C3_amended_witness :
    ((2, t3probe) ∈ check_timeouts 0 [(2, t3probe)])
  ∧ t3probe ∈ (loop_sweep 0 [(2, t3probe)]).delivered :=
  ⟨by decide, ((C3_amended 0 [(2, t3probe)]).2.2.1 2 t3probe (by decide) (by decide)).1⟩

/-- Engine and world for the C3 counterexample. -/
def e3 : Engine :=
  { ident := 7, remote_ip := "192.0.2.1", source_ip := "",
    remote_addr := { family := AddrFamily.v4, host := "192.0.2.1", port := 0 },
    source_addr := { family := AddrFamily.v4, host := "", port := 0 },
    probes := [] }

def w3 : SysWorld := { socketFd := some 6, bindOk := true, sendErr := none }

/-- C3 counterexample: `send_probe` returns 0 (the probe is registered),
the engine is then stopped, and over the whole lifetime the callback fires
zero times for that probe — not exactly once as claimed. -/
theorem C3_counterexample :
    (send_probe e3 w3 1 ProbeType.ICMP 0 1 64 1000 8 false [] 0).ret = SEND_PROBE_SUCCESS
  ∧ (runEngine e3 [WorkerEvent.sendEv w3 1 ProbeType.ICMP 0 1 64 1000 8 false [] 0,
      WorkerEvent.shutdownEv]).2 = [] := by
  decide

lemma length_listResize (l : List Nat) (n : Nat) : (listResize l n).length = n := by
  unfold listResize
  rw [List.length_append, List.length_take, List.length_replicate]
  omega

lemma cmsgStep_reply_data (stamp : Int) (q : ProbeContext) (c : Cmsg) :
    (cmsgStep stamp q c).reply_data = q.reply_data := by
  cases c <;> rfl

lemma cmsgStep_overhead (stamp : Int) (q : ProbeContext) (c : Cmsg) :
    (cmsgStep stamp q c).overhead = q.overhead := by
  cases c <;> rfl

lemma cmsgStep_probe_type (stamp : Int) (q : ProbeContext) (c : Cmsg) :
    (cmsgStep stamp q c).probe_type = q.probe_type := by
  cases c <;> rfl

lemma cmsgStep_status (stamp : Int) (q : ProbeContext) (c : Cmsg) :
    (cmsgStep stamp q c).status = q.status ∨ (cmsgStep stamp q c).status = ProbeStatus.ERROR := by
  cases c
  · right
    rfl
  · left
    rfl
  · left
    rfl

lemma processCmsgs_reply_data (p : ProbeContext) (cmsgs : List Cmsg) (stamp : Int) :
    (processCmsgs p cmsgs stamp).reply_data = p.reply_data := by
  induction cmsgs generalizing p with
  | nil => rfl
  | cons c cs ih =>
    have h : processCmsgs p (c :: cs) stamp = processCmsgs (cmsgStep stamp p c) cs stamp := rfl
    rw [h, ih, cmsgStep_reply_data]

lemma processCmsgs_overhead (p : ProbeContext) (cmsgs : List Cmsg) (stamp : Int) :
    (processCmsgs p cmsgs stamp).overhead = p.overhead := by
  induction cmsgs generalizing p with
  | nil => rfl
  | cons c cs ih =>
    have h : processCmsgs p (c :: cs) stamp = processCmsgs (cmsgStep stamp p c) cs stamp := rfl
    rw [h, ih, cmsgStep_overhead]

lemma processCmsgs_probe_type (p : ProbeContext) (cmsgs : List Cmsg) (stamp : Int) :
    (processCmsgs p cmsgs stamp).probe_type = p.probe_type := by
  induction cmsgs generalizing p with
  | nil => rfl
  | cons c cs ih =>
    have h : processCmsgs p (c :: cs) stamp = processCmsgs (cmsgStep stamp p c) cs stamp := rfl
    rw [h, ih, cmsgStep_probe_type]

lemma processCmsgs_status (p : ProbeContext) (cmsgs : List Cmsg) (stamp : Int) :
    (processCmsgs p cmsgs stamp).status = p.status
  ∨ (processCmsgs p cmsgs stamp).status = ProbeStatus.ERROR := by
  induction cmsgs generalizing p with
  | nil => exact Or.inl rfl
  | cons c cs ih =>
    have h : processCmsgs p (c :: cs) stamp = processCmsgs (cmsgStep stamp p c) cs stamp := rfl
    rw [h]
    rcases ih (cmsgStep stamp p c) with h2 | h2
    · rcases cmsgStep_status stamp p c with h3 | h3
      · exact Or.inl (h2.trans h3)
      · exact Or.inr (h2.trans h3)
    · exact Or.inr h2

lemma read_pass1_status (probe : ProbeContext) (w : RecvWorld) (now : Int) :
    (read_pass1 probe w now).status = ProbeStatus.TIMEOUT
  ∨ (read_pass1 probe w now).status = ProbeStatus.ERROR := by
  unfold read_pass1
  cases w.errqueue with
  | none => exact Or.inl rfl
  | some r => exact processCmsgs_status _ _ _

lemma read_pass1_reply_data (probe : ProbeContext) (w : RecvWorld) (now : Int) :
    (read_pass1 probe w now).reply_data = listResize probe.reply_data INCOMING_BUFFER_SIZE := by
  unfold read_pass1
  cases w.errqueue with
  | none => rfl
  | some r => exact processCmsgs_reply_data _ _ _

lemma read_data_status (probe : ProbeContext) (w : RecvWorld) (now : Int) :
    (read_data probe w now).status = (read_pass2 (read_pass1 probe w now) w).status := rfl

lemma read_data_reply_data (probe : ProbeContext) (w : RecvWorld) (now : Int) :
    (read_data probe w now).reply_data = (read_pass2 (read_pass1 probe w now) w).reply_data := rfl

lemma read_data_success_shape (probe : ProbeContext) (w : RecvWorld) (now : Int)
    (h : (read_data probe w now).status = ProbeStatus.SUCCESS) :
    ∃ r, w.dataRecv = some r ∧ (read_data probe w now).reply_data.length = r.dataLen := by
  rw [read_data_status] at h
  rw [read_data_reply_data]
  unfold read_pass2 at h ⊢
  by_cases herr : (read_pass1 probe w now).status = ProbeStatus.ERROR
  · rw [if_pos herr] at h
    rw [herr] at h
    exact absurd h (by decide)
  · rw [if_neg herr] at h ⊢
    cases hd : w.dataRecv with
    | none =>
      rw [hd] at h
      rcases read_pass1_status probe w now with h1 | h1
      · rw [h1] at h
        exact absurd h (by decide)
      · exact absurd h1 herr
    | some r =>
      rw [hd] at h
      exact ⟨r, rfl, length_listResize _ _⟩

lemma read_data_not_success_shape (probe : ProbeContext) (w : RecvWorld) (now : Int)
    (h : ¬ (read_data probe w now).status = ProbeStatus.SUCCESS) :
    (read_data probe w now).reply_data.length = INCOMING_BUFFER_SIZE := by
  rw [read_data_status] at h
  rw [read_data_reply_data]
  unfold read_pass2 at h ⊢
  by_cases herr : (read_pass1 probe w now).status = ProbeStatus.ERROR
  · rw [if_pos herr]
    rw [read_pass1_reply_data, length_listResize]
  · rw [if_neg herr] at h ⊢
    cases hd : w.dataRecv with
    | none =>
      rw [read_pass1_reply_data, length_listResize]
    | some r =>
      rw [hd] at h
      exact absurd rfl h

/-- C5 amended: when `read_data` runs on a readable descriptor and neither
the error-queue pass nor the data pass receives anything (both non-blocking
receives would block), the probe's status is NOT left at WAITING: `read_data`
sets it to TIMEOUT on entry (ProbeManager.cpp:434) and nothing overwrites
it, so the probe is delivered as TIMEOUT by the following sweep. -/
theorem C5_amended (probe : ProbeContext) (s1 s2 now : Int) :
    (read_data probe { errqueue := none, dataRecv := none, stampErr := s1, stampData := s2 } now).status
      = ProbeStatus.TIMEOUT := rfl

/-- A probe in flight when a spurious readiness edge arrives. -/
def c5probe : ProbeContext := { id := 51 }

/-- C5 counterexample: a WAITING probe handed to `read_data` with both
receive passes yielding nothing ends with status TIMEOUT, not WAITING,
refuting the claim that the status is left unchanged at WAITING. -/
theorem C5_counterexample :
    c5probe.status = ProbeStatus.WAITING
  ∧ (read_data c5probe { errqueue := none, dataRecv := none, stampErr := 0, stampData := 0 } 4).status
      = ProbeStatus.TIMEOUT
  ∧ ¬ (read_data c5probe { errqueue := none, dataRecv := none, stampErr := 0, stampData := 0 } 4).status
      = ProbeStatus.WAITING := by
  refine ⟨rfl, rfl, ?_⟩
  intro h
  exact absurd h (by decide)

lemma table_insert_mem {t : List (Nat × ProbeContext)} {fd : Nat} {p : ProbeContext}
    {x : Nat × ProbeContext} (h : x ∈ table_insert t fd p) : x ∈ t ∨ x = (fd, p) := by
  unfold table_insert at h
  split at h
  · rw [List.mem_map] at h
    obtain ⟨y, hy, hxy⟩ := h
    by_cases hk : y.1 = fd
    · right
      rw [if_pos hk] at hxy
      exact hxy.symm
    · left
      rw [if_neg hk] at hxy
      exact hxy ▸ hy
  · rw [List.mem_append] at h
    rcases h with h | h
    · exact Or.inl h
    · right
      simpa using h

/-- Branch analysis of `send_probe`: address fields are never changed; every
new table entry is the freshly built probe (WAITING, empty reply buffer,
spec overhead); every synchronous callback is a FATAL_ERROR record with the
spec overhead; and the destination passed to `sendto` is the local copy of
`remote_addr`, with the port written only into that copy. -/
lemma send_probe_shape (e : Engine) (w : SysWorld) (id : Int) (ptype : ProbeType)
    (port seq ttl timeout : Int) (size : Nat) (dm : Bool) (pattern : List Nat) (now : Int) :
    ((send_probe e w id ptype port seq ttl timeout size dm pattern now).engine.remote_addr
        = e.remote_addr
      ∧ (send_probe e w id ptype port seq ttl timeout size dm pattern now).engine.source_addr
        = e.source_addr
      ∧ (send_probe e w id ptype port seq ttl timeout size dm pattern now).engine.ident
        = e.ident)
  ∧ (∀ x ∈ (send_probe e w id ptype port seq ttl timeout size dm pattern now).engine.probes,
      x ∈ e.probes ∨ (x.2.status = ProbeStatus.WAITING ∧ x.2.reply_data = []
        ∧ x.2.overhead = overheadSpec ptype e.remote_addr.family ∧ x.2.probe_type = ptype
        ∧ x.2.id = id ∧ x.2.sequence = Int.tmod seq 65535))
  ∧ (∀ p ∈ (send_probe e w id ptype port seq ttl timeout size dm pattern now).callbacks,
      p.status = ProbeStatus.FATAL_ERROR ∧ p.overhead = overheadSpec ptype e.remote_addr.family
        ∧ p.probe_type = ptype)
  ∧ (∀ a, (send_probe e w id ptype port seq ttl timeout size dm pattern now).sentTo = some a →
      a = (if ptype = ProbeType.UDP ∧ port > 0
        then { e.remote_addr with port := (Int.emod port 65536).toNat }
        else e.remote_addr)) := by
  unfold send_probe
  cases w.socketFd with
  | none =>
    dsimp only
    refine ⟨⟨rfl, rfl, rfl⟩, ?_, ?_, ?_⟩
    · intro x hx
      exact Or.inl hx
    · intro p hp
      simp only [List.mem_singleton] at hp
      subst hp
      exact ⟨rfl, rfl, rfl⟩
    · intro a ha
      exact absurd ha (by simp)
  | some sock =>
    dsimp only
    by_cases hb : e.source_ip ≠ "" ∧ w.bindOk = false
    · rw [if_pos hb]
      refine ⟨⟨rfl, rfl, rfl⟩, ?_, ?_, ?_⟩
      · intro x hx
        exact Or.inl hx
      · intro p hp
        simp only [List.mem_singleton] at hp
        subst hp
        exact ⟨rfl, rfl, rfl⟩
      · intro a ha
        exact absurd ha (by simp)
    · rw [if_neg hb]
      cases w.sendErr with
      | some errn =>
        dsimp only
        by_cases he : errn ≠ EMSGSIZE
        · rw [if_pos he]
          refine ⟨⟨rfl, rfl, rfl⟩, ?_, ?_, ?_⟩
          · intro x hx
            exact Or.inl hx
          · intro p hp
            simp only [List.mem_singleton] at hp
            subst hp
            exact ⟨rfl, rfl, rfl⟩
          · intro a ha
            simp only [Option.some.injEq] at ha
            exact ha.symm
        · rw [if_neg he]
          refine ⟨⟨rfl, rfl, rfl⟩, ?_, ?_, ?_⟩
          · intro x hx
            rcases table_insert_mem hx with h | h
            · exact Or.inl h
            · right
              subst h
              exact ⟨rfl, rfl, rfl, rfl, rfl, rfl⟩
          · intro p hp
            exact absurd hp (by simp)
          · intro a ha
            simp only [Option.some.injEq] at ha
            exact ha.symm
      | none =>
        dsimp only
        refine ⟨⟨rfl, rfl, rfl⟩, ?_, ?_, ?_⟩
        · intro x hx
          rcases table_insert_mem hx with h | h
          · exact Or.inl h
          · right
            subst h
            exact ⟨rfl, rfl, rfl, rfl, rfl, rfl⟩
        · intro p hp
          exact absurd hp (by simp)
        · intro a ha
          simp only [Option.some.injEq] at ha
          exact ha.symm

lemma check_timeouts_entry {now : Int} {probes : List (Nat × ProbeContext)}
    {x : Nat × ProbeContext} (h : x ∈ check_timeouts now probes) :
    ∃ y ∈ probes, x.1 = y.1 ∧ x.2.reply_data = y.2.reply_data
      ∧ x.2.overhead = y.2.overhead ∧ x.2.probe_type = y.2.probe_type := by
  unfold check_timeouts at h
  rw [List.mem_map] at h
  obtain ⟨y, hy, hxy⟩ := h
  refine ⟨y, hy, ?_⟩
  subst hxy
  split <;> exact ⟨rfl, rfl, rfl, rfl⟩

lemma loop_sweep_delivered_mem {now : Int} {probes : List (Nat × ProbeContext)}
    {p : ProbeContext} (h : p ∈ (loop_sweep now probes).delivered) :
    ∃ y ∈ probes, p.reply_data = y.2.reply_data ∧ p.overhead = y.2.overhead
      ∧ p.probe_type = y.2.probe_type := by
  unfold loop_sweep send_callbacks at h
  simp only at h
  rw [List.mem_map] at h
  obtain ⟨x, hx, hxp⟩ := h
  rw [List.mem_filter] at hx
  obtain ⟨y, hy, _, h2, h3, h4⟩ := check_timeouts_entry hx.1
  subst hxp
  exact ⟨y, hy, h2, h3, h4⟩

/-- C6 amended: `reply_data` is empty on every probe that never went
through `read_data` (`send_probe` registers probes with an empty reply
buffer, and delivery passes report the stored record); once `read_data` has
run, `reply_data` holds the full `INCOMING_BUFFER_SIZE`-byte receive buffer
unless the status is SUCCESS, in which case it is trimmed to exactly the
number of bytes received.  (The callback reads `reply_data` only for
SUCCESS results, but the field itself is not empty on ERROR/TIMEOUT records
that passed through `read_data`.) -/
theorem C6_amended (probe : ProbeContext) (w : RecvWorld) (now : Int) :
    ((read_data probe w now).status = ProbeStatus.SUCCESS →
      ∃ r, w.dataRecv = some r ∧ (read_data probe w now).reply_data.length = r.dataLen)
  ∧ (¬ (read_data probe w now).status = ProbeStatus.SUCCESS →
      (read_data probe w now).reply_data.length = INCOMING_BUFFER_SIZE)
  ∧ (∀ nowS : Int, ∀ probes : List (Nat × ProbeContext), ∀ p ∈ (loop_sweep nowS probes).delivered,
      ∃ y ∈ probes, p.reply_data = y.2.reply_data)
  ∧ (∀ (e : Engine) (sw : SysWorld) (id : Int) (ptype : ProbeType)
      (port seq ttl timeout : Int) (size : Nat) (dm : Bool) (pattern : List Nat) (nowP : Int),
      ∀ x ∈ (send_probe e sw id ptype port seq ttl timeout size dm pattern nowP).engine.probes,
        x ∈ e.probes ∨ x.2.reply_data = []) := by
  refine ⟨read_data_success_shape probe w now, read_data_not_success_shape probe w now, ?_, ?_⟩
  · intro nowS probes p hp
    obtain ⟨y, hy, h2, _, _⟩ := loop_sweep_delivered_mem hp
    exact ⟨y, hy, h2⟩
  · intro e sw id ptype port seq ttl timeout size dm pattern nowP x hx
    rcases (send_probe_shape e sw id ptype port seq ttl timeout size dm pattern nowP).2.1 x hx
      with h | h
    · exact Or.inl h
    · exact Or.inr h.2.1

/-- World for the C6 witness: a clean 16-byte reply. -/
def w6 : RecvWorld :=
  { errqueue := none, dataRecv := some { dataLen := 16, cmsgs := [Cmsg.hopLimit 64] },
    stampErr := 0, stampData := 9 }

/-- C6 witness: a successful receive of 16 bytes leaves a 16-byte reply
buffer. -/
theorem C6_amended_witness :
    (read_data { id := 60 } w6 5).status = ProbeStatus.SUCCESS
  ∧ ∃ r, w6.dataRecv = some r ∧ (read_data { id := 60 } w6 5).reply_data.length = r.dataLen :=
  ⟨by decide, (C6_amended { id := 60 } w6 5).1 (by decide)⟩

/-- Probe and world for the C6 counterexample: an asynchronous ICMP error
arrives on the error queue. -/
def c6probe : ProbeContext := { id := 61 }

def c6world : RecvWorld :=
  { errqueue := some { dataLen := 0, cmsgs := [Cmsg.recvErr 113 0 2 0 "10.0.0.9"] },
    dataRecv := none, stampErr := 3, stampData := 0 }

/-- C6 counterexample: a probe that received an error-queue message is
delivered with status ERROR and a 2048-byte `reply_data`, refuting the
claim that `reply_data` is empty unless the status is SUCCESS. -/
theorem C6_counterexample :
    (read_data c6probe c6world 5).status = ProbeStatus.ERROR
  ∧ (read_data c6probe c6world 5) ∈ (loop_sweep 6 [(4, read_data c6probe c6world 5)]).delivered
  ∧ (read_data c6probe c6world 5).reply_data.length = 2048
  ∧ ¬ (read_data c6probe c6world 5).reply_data = [] := by
  have hst : (read_data c6probe c6world 5).status = ProbeStatus.ERROR := rfl
  have hlen : (read_data c6probe c6world 5).reply_data.length = 2048 := by
    have h2 := read_data_not_success_shape c6probe c6world 5 (by rw [hst]; decide)
    simpa [INCOMING_BUFFER_SIZE] using h2
  have hne : ¬ (read_data c6probe c6world 5).reply_data = [] := by
    intro hcon
    rw [hcon] at hlen
    simp at hlen
  have hmem : (read_data c6probe c6world 5)
      ∈ (loop_sweep 6 [(4, read_data c6probe c6world 5)]).delivered := by
    unfold loop_sweep send_callbacks check_timeouts clean_probes
    simp [hst]
  exact ⟨hst, hmem, hlen, hne⟩

lemma table_insert_self (t : List (Nat × ProbeContext)) (fd : Nat) (p : ProbeContext) :
    (fd, p) ∈ table_insert t fd p := by
  unfold table_insert
  split
  · rename_i h
    rw [List.any_eq_true] at h
    obtain ⟨y, hy, hyfd⟩ := h
    rw [List.mem_map]
    refine ⟨y, hy, ?_⟩
    rw [if_pos (by simpa using hyfd)]
  · rw [List.mem_append]
    right
    simp

/-- C4: if `sendto` fails with errno EMSGSIZE, `send_probe` still registers
the probe in the table (status WAITING) and returns 0, with no synchronous
callback and no socket closed; if `sendto` fails with any other errno,
`send_probe` closes the socket, does not register the probe, invokes the
callback synchronously with a FATAL_ERROR record, and returns -1. -/
theorem C4_send_error_paths (e : Engine) (w : SysWorld) (id : Int) (ptype : ProbeType)
    (port seq ttl timeout : Int) (size : Nat) (dm : Bool) (pattern : List Nat) (now : Int)
    (sock : Nat) (hs : w.socketFd = some sock) (hb : e.source_ip = "" ∨ w.bindOk = true) :
    (w.sendErr = some EMSGSIZE →
        (send_probe e w id ptype port seq ttl timeout size dm pattern now).ret
          = SEND_PROBE_SUCCESS
      ∧ (∃ p, (sock, p) ∈ (send_probe e w id ptype port seq ttl timeout size dm pattern now).engine.probes
          ∧ p.status = ProbeStatus.WAITING ∧ p.id = id)
      ∧ (send_probe e w id ptype port seq ttl timeout size dm pattern now).callbacks = []
      ∧ (send_probe e w id ptype port seq ttl timeout size dm pattern now).closed = [])
  ∧ (∀ er, w.sendErr = some er → ¬ er = EMSGSIZE →
        (send_probe e w id ptype port seq ttl timeout size dm pattern now).ret
          = SEND_PROBE_ERROR
      ∧ (send_probe e w id ptype port seq ttl timeout size dm pattern now).engine.probes
          = e.probes
      ∧ (send_probe e w id ptype port seq ttl timeout size dm pattern now).closed = [sock]
      ∧ (send_probe e w id ptype port seq ttl timeout size dm pattern now).callbacks.map
          (fun p => p.status) = [ProbeStatus.FATAL_ERROR]) := by
  have hbn : ¬ (e.source_ip ≠ "" ∧ w.bindOk = false) := by
    rcases hb with h | h
    · simp [h]
    · simp [h]
  unfold send_probe
  rw [hs]
  dsimp only
  rw [if_neg hbn]
  constructor
  · intro hse
    rw [hse]
    dsimp only
    rw [if_neg (by simp)]
    exact ⟨rfl, ⟨_, table_insert_self _ _ _, rfl, rfl⟩, rfl, rfl⟩
  · intro er hse hne
    rw [hse]
    dsimp only
    rw [if_pos hne]
    exact ⟨rfl, rfl, rfl, rfl⟩

/-- Engine and worlds for the C4 witness. -/
def e4 : Engine :=
  { ident := 9, remote_ip := "198.51.100.2", source_ip := "",
    remote_addr := { family := AddrFamily.v4, host := "198.51.100.2", port := 0 },
    source_addr := { family := AddrFamily.v4, host := "", port := 0 },
    probes := [] }

def w4 : SysWorld := { socketFd := some 9, bindOk := true, sendErr := some EMSGSIZE }

/-- C4 witness: the EMSGSIZE path at a concrete engine and world. -/
theorem C4_send_error_paths_witness :
    (send_probe e4 w4 2 ProbeType.ICMP 0 1 0 1000 1400 true [] 0).ret = SEND_PROBE_SUCCESS
  ∧ (∃ p, (9, p) ∈ (send_probe e4 w4 2 ProbeType.ICMP 0 1 0 1000 1400 true [] 0).engine.probes
      ∧ p.status = ProbeStatus.WAITING ∧ p.id = 2)
  ∧ (send_probe e4 w4 2 ProbeType.ICMP 0 1 0 1000 1400 true [] 0).callbacks = []
  ∧ (send_probe e4 w4 2 ProbeType.ICMP 0 1 0 1000 1400 true [] 0).closed = [] :=
  (C4_send_error_paths e4 w4 2 ProbeType.ICMP 0 1 0 1000 1400 true [] 0 9 rfl
    (Or.inl rfl)).1 rfl

/-- C10: `send_probe` never modifies the engine's stored destination
address (`remote_addr`) or source address: for UDP probes with `port > 0`
the port is written only into the local copy of the destination address
that is handed to `sendto` (`local_remote_addr`,
ProbeManager.cpp:312-327), so every later probe of the same engine sees
the originally resolved addresses unchanged. -/
theorem C10_remote_addr_unchanged (e : Engine) (w : SysWorld) (id : Int)
    (ptype : ProbeType) (port seq ttl timeout : Int) (size : Nat) (dm : Bool)
    (pattern : List Nat) (now : Int) :
    (send_probe e w id ptype port seq ttl timeout size dm pattern now).engine.remote_addr
      = e.remote_addr
  ∧ (send_probe e w id ptype port seq ttl timeout size dm pattern now).engine.source_addr
      = e.source_addr
  ∧ (∀ a, (send_probe e w id ptype port seq ttl timeout size dm pattern now).sentTo = some a →
      a = (if ptype = ProbeType.UDP ∧ port > 0
        then { e.remote_addr with port := (Int.emod port 65536).toNat }
        else e.remote_addr)) := by
  obtain ⟨⟨h1, h2, _⟩, _, _, h4⟩ :=
    send_probe_shape e w id ptype port seq ttl timeout size dm pattern now
  exact ⟨h1, h2, h4⟩

/-- Engine and world for the C10 witness. -/
def e10 : Engine :=
  { ident := 5, remote_ip := "203.0.113.5", source_ip := "",
    remote_addr := { family := AddrFamily.v4, host := "203.0.113.5", port := 0 },
    source_addr := { family := AddrFamily.v4, host := "", port := 0 },
    probes := [] }

def w10 : SysWorld := { socketFd := some 12, bindOk := true, sendErr := none }

/-- C10 witness: a UDP probe to port 443 writes the port only into the copy
handed to sendto, while the engine's stored address keeps port 0. -/
theorem C10_remote_addr_unchanged_witness :
    (send_probe e10 w10 1 ProbeType.UDP 443 1 0 1000 32 false [] 0).engine.remote_addr
      = e10.remote_addr
  ∧ ({ family := AddrFamily.v4, host := "203.0.113.5", port := 443 } : SockAddr)
      = (if ProbeType.UDP = ProbeType.UDP ∧ (443 : Int) > 0
        then { e10.remote_addr with port := (Int.emod 443 65536).toNat }
        else e10.remote_addr) :=
  ⟨(C10_remote_addr_unchanged e10 w10 1 ProbeType.UDP 443 1 0 1000 32 false [] 0).1,
   (C10_remote_addr_unchanged e10 w10 1 ProbeType.UDP 443 1 0 1000 32 false [] 0).2.2
     { family := AddrFamily.v4, host := "203.0.113.5", port := 443 } (by decide)⟩

/-- Engine and world for the C2 failing input. -/
def e2 : Engine :=
  { ident := 7, remote_ip := "192.0.2.33", source_ip := "",
    remote_addr := { family := AddrFamily.v4, host := "192.0.2.33", port := 0 },
    source_addr := { family := AddrFamily.v4, host := "", port := 0 },
    probes := [] }

def w2 : SysWorld := { socketFd := some 8, bindOk := true, sendErr := none }

/-- C2 failing input evaluated: `send_probe` with `sequence = 65535`
stores `65535 % 0xffff = 0` in the probe record (ProbeManager.cpp:279) and
the ICMP echo header carries big-endian `0x0000`, while the claim (mod
65536, the 16-bit wrap the field requires) demands 65535 / `0xffff`. -/
theorem C2_sequence_wrap_bug :
    (send_probe e2 w2 1 ProbeType.ICMP 0 65535 64 1000 8 false [] 0).ret = SEND_PROBE_SUCCESS
  ∧ ((send_probe e2 w2 1 ProbeType.ICMP 0 65535 64 1000 8 false [] 0).engine.probes.map
      (fun x => x.2.sequence)) = [0]
  ∧ ((send_probe e2 w2 1 ProbeType.ICMP 0 65535 64 1000 8 false [] 0).engine.probes.map
      (fun x => x.2.packet_data)) = [[8, 0, 0, 0, 0, 7, 0, 0]]
  ∧ (65535 : Int) % 65536 = 65535 := by
  decide

lemma read_pass1_overhead (probe : ProbeContext) (w : RecvWorld) (now : Int) :
    (read_pass1 probe w now).overhead = probe.overhead := by
  unfold read_pass1
  cases w.errqueue with
  | none => rfl
  | some r => exact processCmsgs_overhead _ _ _

lemma read_pass1_probe_type (probe : ProbeContext) (w : RecvWorld) (now : Int) :
    (read_pass1 probe w now).probe_type = probe.probe_type := by
  unfold read_pass1
  cases w.errqueue with
  | none => rfl
  | some r => exact processCmsgs_probe_type _ _ _

lemma read_pass2_overhead (p1 : ProbeContext) (w : RecvWorld) :
    (read_pass2 p1 w).overhead = p1.overhead := by
  unfold read_pass2
  split
  · rfl
  · cases w.dataRecv with
    | none => rfl
    | some r => exact processCmsgs_overhead _ _ _

lemma read_pass2_probe_type (p1 : ProbeContext) (w : RecvWorld) :
    (read_pass2 p1 w).probe_type = p1.probe_type := by
  unfold read_pass2
  split
  · rfl
  · cases w.dataRecv with
    | none => rfl
    | some r => exact processCmsgs_probe_type _ _ _

lemma read_data_overhead (probe : ProbeContext) (w : RecvWorld) (now : Int) :
    (read_data probe w now).overhead = probe.overhead := by
  show (read_pass2 (read_pass1 probe w now) w).overhead = probe.overhead
  rw [read_pass2_overhead, read_pass1_overhead]

lemma read_data_probe_type (probe : ProbeContext) (w : RecvWorld) (now : Int) :
    (read_data probe w now).probe_type = probe.probe_type := by
  show (read_pass2 (read_pass1 probe w now) w).probe_type = probe.probe_type
  rw [read_pass2_probe_type, read_pass1_probe_type]

lemma stepEngine_addr (e : Engine) (ev : WorkerEvent) :
    (stepEngine e ev).1.remote_addr = e.remote_addr := by
  cases ev with
  | sendEv w id ptype port seq ttl timeout size dm pattern now =>
    exact (send_probe_shape e w id ptype port seq ttl timeout size dm pattern now).1.1
  | readyEv fd rw now => rfl
  | sweepEv now => rfl
  | shutdownEv => rfl

lemma stepEngine_inv (e : Engine) (ev : WorkerEvent) (h : overheadInv e) :
    overheadInv (stepEngine e ev).1
  ∧ ∀ p ∈ (stepEngine e ev).2, p.overhead = overheadSpec p.probe_type e.remote_addr.family := by
  cases ev with
  | sendEv w id ptype port seq ttl timeout size dm pattern now =>
    obtain ⟨⟨haddr, _, _⟩, hreg, hcb, _⟩ :=
      send_probe_shape e w id ptype port seq ttl timeout size dm pattern now
    constructor
    · intro x hx
      have hx2 : x ∈ (send_probe e w id ptype port seq ttl timeout size dm pattern now).engine.probes := hx
      show x.2.overhead = overheadSpec x.2.probe_type
        (send_probe e w id ptype port seq ttl timeout size dm pattern now).engine.remote_addr.family
      rw [haddr]
      rcases hreg x hx2 with hmem | ⟨_, _, hov, hpt, _, _⟩
      · exact h x hmem
      · rw [hov, hpt]
    · intro p hp
      have hp2 : p ∈ (send_probe e w id ptype port seq ttl timeout size dm pattern now).callbacks := hp
      obtain ⟨_, hov, hpt⟩ := hcb p hp2
      rw [hov, hpt]
  | readyEv fd rw now =>
    constructor
    · intro x hx
      have hx2 : x ∈ e.probes.map
          (fun x => if x.1 = fd then (x.1, read_data x.2 rw now) else x) := hx
      show x.2.overhead = overheadSpec x.2.probe_type e.remote_addr.family
      rw [List.mem_map] at hx2
      obtain ⟨y, hy, hxy⟩ := hx2
      subst hxy
      have hres := h y hy
      by_cases hk : y.1 = fd
      · rw [if_pos hk]
        show (read_data y.2 rw now).overhead = _
        rw [read_data_overhead, read_data_probe_type]
        exact hres
      · rw [if_neg hk]
        exact hres
    · intro p hp
      have hp2 : p ∈ ([] : List ProbeContext) := hp
      exact absurd hp2 (by simp)
  | sweepEv now =>
    constructor
    · intro x hx
      have hx2 : x ∈ (loop_sweep now e.probes).remaining := hx
      show x.2.overhead = overheadSpec x.2.probe_type e.remote_addr.family
      unfold loop_sweep clean_probes at hx2
      simp only at hx2
      rw [List.mem_filter] at hx2
      obtain ⟨y, hy, _, _, hov, hpt⟩ := check_timeouts_entry hx2.1
      rw [hov, hpt]
      exact h y hy
    · intro p hp
      have hp2 : p ∈ (loop_sweep now e.probes).delivered := hp
      obtain ⟨y, hy, _, hov, hpt⟩ := loop_sweep_delivered_mem hp2
      rw [hov, hpt]
      exact h y hy
  | shutdownEv =>
    constructor
    · intro x hx
      have hx2 : x ∈ (handler_exit e.probes).remaining := hx
      rw [handler_exit_eq] at hx2
      exact absurd hx2 (by simp)
    · intro p hp
      have hp2 : p ∈ (handler_exit e.probes).delivered := hp
      rw [handler_exit_eq] at hp2
      exact absurd hp2 (by simp)

/-- C8: on every delivered result — whether delivered synchronously by
`send_probe`'s failure paths or by the worker's delivery sweep at any point
of a run — the `overhead` field equals
`(8 if probe_type is UDP else 0) + (20 if the destination family is IPv4
else 40)`. -/
theorem C8_overhead (e : Engine) (evs : List WorkerEvent) (hinv : overheadInv e) :
    ∀ p ∈ (runEngine e evs).2, p.overhead = overheadSpec p.probe_type e.remote_addr.family := by
  induction evs generalizing e with
  | nil =>
    intro p hp
    exact absurd hp (by simp [runEngine])
  | cons ev evs ih =>
    intro p hp
    have hrun : (runEngine e (ev :: evs)).2
        = (stepEngine e ev).2 ++ (runEngine (stepEngine e ev).1 evs).2 := rfl
    rw [hrun] at hp
    rcases List.mem_append.mp hp with hc | hc
    · exact (stepEngine_inv e ev hinv).2 p hc
    · have := ih (stepEngine e ev).1 (stepEngine_inv e ev hinv).1 p hc
      rwa [stepEngine_addr] at this

/-- Engine, world, events and expected record for the C8 witness: a send
whose sendto fails fatally, so the FATAL_ERROR record is delivered
synchronously. -/
def e8 : Engine :=
  { ident := 1, remote_ip := "192.0.2.77", source_ip := "",
    remote_addr := { family := AddrFamily.v4, host := "192.0.2.77", port := 0 },
    source_addr := { family := AddrFamily.v4, host := "", port := 0 },
    probes := [] }

def w8 : SysWorld := { socketFd := some 5, bindOk := true, sendErr := some 13 }

def ev8 : List WorkerEvent :=
  [WorkerEvent.sendEv w8 3 ProbeType.UDP 80 1 64 500 4 false [] 0]

def p8 : ProbeContext :=
  { id := 3, remote_ip := "192.0.2.77", packet_data := [0, 0, 0, 0], ttl := 64,
    timeout := 500, overhead := 28, probe_type := ProbeType.UDP, sequence := 1,
    error_msg := "Error sending probe", status := ProbeStatus.FATAL_ERROR }

/-- C8 witness: a run with one fatally failing send delivers a record with
UDP/IPv4 overhead 28. -/
theorem C8_overhead_witness :
    p8.overhead = overheadSpec p8.probe_type e8.remote_addr.family :=
  C8_overhead e8 ev8 (fun x hx => absurd hx (List.not_mem_nil x)) p8 (by decide)

end Icmpenguin
